import Mathlib

/-!
Verification of the JAnim reactive-caching / animation-updater core.

The definitions below are a shallow embedding of `janim/utils/signal.py`
and `janim/anims/updater.py`: stateful Python code is modelled as pure
functions producing explicit traces of observable effects.
-/

/-! ## Association lists (model of Python `dict` / `defaultdict`) -/

/-- Lookup in an association list, mirroring Python `d[k]` / `k in d`. -/
def alookup {α β : Type} [DecidableEq α] : List (α × β) → α → Option β
  | [], _ => none
  | (k', v) :: rest, k => if k' = k then some v else alookup rest k

/-- Update-or-insert with a default, mirroring `defaultdict` access followed
by an in-place mutation `f` of the entry. -/
def updD {α β : Type} [DecidableEq α] : List (α × β) → α → β → (β → β) → List (α × β)
  | [], k, d, f => [(k, f d)]
  | (k', v) :: rest, k, d, f =>
    if k' = k then (k', f v) :: rest else (k', v) :: updD rest k d f

/-- Concatenation of the lists produced for each element, mirroring the
flattening of a Python loop body that appends several effects per element. -/
def concatMap {α β : Type} (f : α → List β) : List α → List β
  | [] => []
  | x :: xs => f x ++ concatMap f xs

/-! ## Signal bus (`janim/utils/signal.py`) -/

/-- Discriminator key (`key: str = ''` in the source). -/
abbrev Key := String

/-- Fully qualified class name (`FullQualname` in the source). -/
abbrev Qualname := String

/-- Model of `_SelfSlotWithRecurse`: a refresh slot carrying recursion flags. -/
structure SelfRecurseSlot where
  func : Nat
  recurse_up : Bool
  recurse_down : Bool
deriving DecidableEq

/-- Model of `_RefreshSlot`: an instance-scoped refresh registration. -/
structure RefreshSlot where
  obj : Nat
  func : Nat
deriving DecidableEq

/-- Model of `_SelfSlots`: the three per-class-level registration lists. -/
structure SelfSlots where
  self_normal_slots : List Nat
  self_refresh_slots : List Nat
  self_refresh_slots_with_recurse : List SelfRecurseSlot
deriving DecidableEq

/-- Model of `_Slots`: the instance-scoped registration lists. -/
structure InstSlots where
  normal_slots : List Nat
  refresh_slots : List RefreshSlot
deriving DecidableEq

/-- Model of `_AllSlots`: per-key dispatch table, keyed by declaring-class
qualified name (self-scoped) and by sender identity (instance-scoped). -/
structure AllSlots where
  self_slots_dict : List (Qualname × SelfSlots)
  slots_dict : List (Nat × InstSlots)
deriving DecidableEq

/-- Model of the `Signal` descriptor: `slots : defaultdict[Key, _AllSlots]`. -/
structure Signal where
  slots : List (Key × AllSlots)
deriving DecidableEq

/-- Model of a Python sender object: its identity (`id(sender)`), its MRO as a
list of fully qualified class names, and whether it is an instance of
`Relation` resp. `Component` (the classes tested by `emit`'s pre-check). -/
structure Sender where
  id : Nat
  mro : List Qualname
  isRelation : Bool
  isComponent : Bool
deriving DecidableEq

/-- Observable effects of one `Signal.emit` call, in execution order.
`selfSlotCall f sa xs` records `func(sender, *args)`;
`connectCall f xs` records `func(*args)`;
the mark events record `mark_refresh` invocations. -/
inductive EmitEvent where
  | selfSlotCall (func : Nat) (senderArg : Nat) (args : List Nat)
  | selfRefreshMark (senderId : Nat) (func : Nat)
  | selfRecurseMark (senderId : Nat) (func : Nat) (recurse_up recurse_down : Bool)
  | connectCall (func : Nat) (args : List Nat)
  | connectRefreshMark (obj : Nat) (func : Nat)
deriving DecidableEq

/-- Effects produced for one matched class level of the MRO loop in `emit`:
normal slots (`func(sender, *args)`), then refresh markings, then
refresh-with-recurse markings — exactly the three inner loops of the source. -/
def emitLevel (sender : Sender) (args : List Nat) (s : SelfSlots) : List EmitEvent :=
  s.self_normal_slots.map (fun f => EmitEvent.selfSlotCall f sender.id args)
    ++ s.self_refresh_slots.map (fun f => EmitEvent.selfRefreshMark sender.id f)
    ++ s.self_refresh_slots_with_recurse.map
        (fun sl => EmitEvent.selfRecurseMark sender.id sl.func sl.recurse_up sl.recurse_down)

/-- The MRO loop of `emit`: walk the sender's MRO, skip classes without an
entry in `self_slots_dict`, run the pre-check (raising `TypeError` — the
`true` flag — when a recurse slot is present and the sender is neither a
`Relation` nor a `Component`), and otherwise execute the level's slots.
Returns the events performed before any raised error, plus the error flag. -/
def emitSelfLevels (sender : Sender) (args : List Nat) (all : AllSlots) :
    List Qualname → List EmitEvent × Bool
  | [] => ([], false)
  | cls :: rest =>
    match alookup all.self_slots_dict cls with
    | none => emitSelfLevels sender args all rest
    | some s =>
      if s.self_refresh_slots_with_recurse ≠ [] ∧ sender.isRelation = false
          ∧ sender.isComponent = false then
        ([], true)
      else
        (emitLevel sender args s ++ (emitSelfLevels sender args all rest).1,
         (emitSelfLevels sender args all rest).2)

/-- The instance-scoped part of `emit`: connected callbacks `func(*args)`
followed by instance-scoped refresh markings. -/
def emitInstance (args : List Nat) (sl : InstSlots) : List EmitEvent :=
  sl.normal_slots.map (fun f => EmitEvent.connectCall f args)
    ++ sl.refresh_slots.map (fun r => EmitEvent.connectRefreshMark r.obj r.func)

/-- Model of `Signal.emit`: the early-return guard `if key not in self.slots`,
the MRO loop, then the instance-scoped slots for `id(sender)`.
Result: the trace of effects actually performed, and whether a `TypeError`
was raised (aborting the remainder of the emission). -/
def Signal.emit (sig : Signal) (sender : Sender) (args : List Nat) (key : Key) :
    List EmitEvent × Bool :=
  match alookup sig.slots key with
  | none => ([], false)
  | some all =>
    let res := emitSelfLevels sender args all sender.mro
    if res.2 then res
    else
      match alookup all.slots_dict sender.id with
      | none => res
      | some sl => (res.1 ++ emitInstance args sl, false)

/-- The registration calls offered by `Signal` (the decorators `self_slot`,
`self_refresh`, `self_refresh_with_recurse` and the methods `connect`,
`connect_refresh`), each carrying its discriminator key. -/
inductive RegOp where
  | self_slot (key : Key) (cls : Qualname) (func : Nat)
  | self_refresh (key : Key) (cls : Qualname) (func : Nat)
  | self_refresh_with_recurse (key : Key) (cls : Qualname) (func : Nat)
      (recurse_up recurse_down : Bool)
  | connect (key : Key) (senderId : Nat) (func : Nat)
  | connect_refresh (key : Key) (senderId : Nat) (obj : Nat) (func : Nat)
deriving DecidableEq

/-- The key under which a registration is recorded. -/
def RegOp.regKey : RegOp → Key
  | .self_slot k _ _ => k
  | .self_refresh k _ _ => k
  | .self_refresh_with_recurse k _ _ _ _ => k
  | .connect k _ _ => k
  | .connect_refresh k _ _ _ => k

/-- `self.slots[key]` on the top-level defaultdict, then mutate. -/
def updAll (sig : Signal) (k : Key) (f : AllSlots → AllSlots) : Signal :=
  ⟨updD sig.slots k ⟨[], []⟩ f⟩

/-- `all_slots.self_slots_dict[full_qualname]`, then mutate. -/
def updSelf (all : AllSlots) (cls : Qualname) (f : SelfSlots → SelfSlots) : AllSlots :=
  ⟨updD all.self_slots_dict cls ⟨[], [], []⟩ f, all.slots_dict⟩

/-- `all_slots.slots_dict[id(sender)]`, then mutate. -/
def updInst (all : AllSlots) (sid : Nat) (f : InstSlots → InstSlots) : AllSlots :=
  ⟨all.self_slots_dict, updD all.slots_dict sid ⟨[], []⟩ f⟩

/-- Effect of one registration call on the dispatch table; each branch mirrors
the corresponding `append` in the source. -/
def applyReg (sig : Signal) : RegOp → Signal
  | .self_slot k cls f =>
    updAll sig k (fun all => updSelf all cls (fun s =>
      ⟨s.self_normal_slots ++ [f], s.self_refresh_slots, s.self_refresh_slots_with_recurse⟩))
  | .self_refresh k cls f =>
    updAll sig k (fun all => updSelf all cls (fun s =>
      ⟨s.self_normal_slots, s.self_refresh_slots ++ [f], s.self_refresh_slots_with_recurse⟩))
  | .self_refresh_with_recurse k cls f up down =>
    updAll sig k (fun all => updSelf all cls (fun s =>
      ⟨s.self_normal_slots, s.self_refresh_slots,
       s.self_refresh_slots_with_recurse ++ [⟨f, up, down⟩]⟩))
  | .connect k sid f =>
    updAll sig k (fun all => updInst all sid (fun s =>
      ⟨s.normal_slots ++ [f], s.refresh_slots⟩))
  | .connect_refresh k sid obj f =>
    updAll sig k (fun all => updInst all sid (fun s =>
      ⟨s.normal_slots, s.refresh_slots ++ [⟨obj, f⟩]⟩))

/-- A `Signal` with no registrations (fresh `defaultdict`). -/
def emptySignal : Signal := ⟨[]⟩

/-- The dispatch table produced by a sequence of registration calls. -/
def mkSignal (ops : List RegOp) : Signal := ops.foldl applyReg emptySignal

/-- The class levels of the sender's MRO that are matched by the emission:
those with an entry in `self_slots_dict` under the given key. -/
def matchedLevels (sig : Signal) (sender : Sender) (key : Key) : List SelfSlots :=
  match alookup sig.slots key with
  | none => []
  | some all => sender.mro.filterMap (fun cls => alookup all.self_slots_dict cls)

/-- The instance-scoped part of the emission's trace. -/
def instanceTrace (sig : Signal) (sender : Sender) (args : List Nat) (key : Key) :
    List EmitEvent :=
  match alookup sig.slots key with
  | none => []
  | some all =>
    match alookup all.slots_dict sender.id with
    | none => []
    | some sl => emitInstance args sl

/-- The four global phases asserted by the specification's ordering sentence:
self-scoped normal slots, self-scoped refresh markings, instance-scoped
callbacks, instance-scoped refresh markings. -/
def phaseC1 : EmitEvent → Nat
  | .selfSlotCall _ _ _ => 0
  | .selfRefreshMark _ _ => 1
  | .selfRecurseMark _ _ _ _ => 1
  | .connectCall _ _ => 2
  | .connectRefreshMark _ _ => 3

/-- The coarser phases that `emit` does globally respect: all self-scoped
reactions, then instance-scoped callbacks, then instance-scoped markings. -/
def phaseCoarse : EmitEvent → Nat
  | .selfSlotCall _ _ _ => 0
  | .selfRefreshMark _ _ => 0
  | .selfRecurseMark _ _ _ _ => 0
  | .connectCall _ _ => 1
  | .connectRefreshMark _ _ => 2

/-- Argument convention of an emission's call events: self-scoped slots get
the sender prepended to the extra arguments, connected callbacks get exactly
the extra arguments. -/
def EventArgsOk (sender : Sender) (args : List Nat) (e : EmitEvent) : Prop :=
  (∀ f sa xs, e = EmitEvent.selfSlotCall f sa xs → sa = sender.id ∧ xs = args)
    ∧ (∀ f xs, e = EmitEvent.connectCall f xs → xs = args)

/-! ## Updaters (`janim/anims/updater.py`) -/

/-- Modelled from the spec: `clip` from `janim.utils.simple_functions` (a file
not under `src/`), used by `get_sub_alpha`; the spec's formula
`sub_alpha = clip(alpha*full_length - i*r, 0, 1)` clamps to the bounds. -/
def clip (x lo hi : ℚ) : ℚ := min (max x lo) hi

/-- Model of `_DataUpdater.get_sub_alpha`, with the instance attributes
`lag_ratio`, `index`, `count` passed explicitly. -/
def get_sub_alpha ( lag_ratio : ℚ) (index count : ℕ) (alpha : ℚ) : ℚ :=
  let full_length := ((count : ℚ) - 1) * lag_ratio + 1
  let value := alpha * full_length
  let lower := (index : ℚ) * lag_ratio
  clip (value - lower) 0 1

/-- An item tree node: Python identity, the `is_null()` flag, and children.
Models the `Item` relation graph as seen by `walk_self_and_descendants`. -/
inductive ItemTree where
  | node (id : Nat) (is_null : Bool) (children : List ItemTree)

/-- The node's identity. -/
def ItemTree.nodeId : ItemTree → Nat
  | .node i _ _ => i

/-- The node's `is_null()` predicate. -/
def ItemTree.isNull : ItemTree → Bool
  | .node _ b _ => b

mutual

/-- Pre-order walk: the item itself followed by all descendants. -/
def ItemTree.walk : ItemTree → List ItemTree
  | .node i b cs => ItemTree.node i b cs :: ItemTree.walkChildren cs

/-- Pre-order walk of a list of subtrees. -/
def ItemTree.walkChildren : List ItemTree → List ItemTree
  | [] => []
  | c :: cs => ItemTree.walk c ++ ItemTree.walkChildren cs

end

/-- Model of `item.walk_self_and_descendants(root_only)`: just the item when
`root_only`, otherwise the item and its descendants in pre-order. -/
def walk_self_and_descendants (t : ItemTree) (root_only : Bool) : List ItemTree :=
  if root_only then [t] else ItemTree.walk t

/-- The list comprehension opening `DataUpdater._time_fixed`:
`[item for item in self.item.walk_self_and_descendants(self.root_only)
 if not self.skip_null_items or not item.is_null()]`. -/
def qualifyingItems (root : ItemTree) (skip_null_items root_only : Bool) : List ItemTree :=
  (walk_self_and_descendants root root_only).filter
    (fun it => !skip_null_items || !ItemTree.isNull it)

/-- The boolean flags held by a `DataUpdater`. -/
structure DataUpdaterCfg where
  show_at_begin : Bool
  hide_at_end : Bool
  become_at_end : Bool
  skip_null_items : Bool
  root_only : Bool
deriving DecidableEq

/-- Observable effects of `DataUpdater._time_fixed`, in execution order:
`spawn` records the construction+finalization of a `_DataUpdater` with its
index/count share; `restoreFromStack` records
`item.restore(stack.compute(t, for_rendering, get_at_left))`;
`detectChange` records `stack.detect_change(item, t, force)`. -/
inductive DUEffect where
  | spawn (itemId index count : Nat) ( lag_ratio : ℚ) (show_at_begin hide_at_end : Bool)
  | restoreFromStack (itemId : Nat) (t : ℚ) (for_rendering get_at_left : Bool)
  | detectChange (itemId : Nat) (t : ℚ) (force : Bool)
deriving DecidableEq

/-- Is the effect a `_DataUpdater` spawn? -/
def DUEffect.isSpawn : DUEffect → Bool
  | .spawn _ _ _ _ _ _ => true
  | _ => false

/-- The per-item data a spawned `_DataUpdater` carries: item identity,
position index, and total count. -/
def spawnData : DUEffect → Option (Nat × Nat × Nat)
  | .spawn itemId index count _ _ _ => some (itemId, index, count)
  | _ => none

/-- Model of `DataUpdater._time_fixed`: for each qualifying item (with index
`i` out of `count`) spawn one `_DataUpdater`, then — when `become_at_end` —
restore the item to the stack state at the range end (with
`for_rendering=True`, `get_at_left=True`) and force a `detect_change` there. -/
def DataUpdater.time_fixed (root : ItemTree) ( lag_ratio : ℚ) (cfg : DataUpdaterCfg)
    (t_end : ℚ) : List DUEffect :=
  concatMap
    (fun p =>
      DUEffect.spawn (ItemTree.nodeId p.2) p.1
          (qualifyingItems root cfg.skip_null_items cfg.root_only).length
          lag_ratio cfg.show_at_begin cfg.hide_at_end
        :: (if cfg.become_at_end then
              [DUEffect.restoreFromStack (ItemTree.nodeId p.2) t_end true true,
               DUEffect.detectChange (ItemTree.nodeId p.2) t_end true]
            else []))
    (qualifyingItems root cfg.skip_null_items cfg.root_only).enum

/-- Mutable state of a `GroupUpdater` observable through `apply_for_group` and
`_GroupUpdater.pre_apply`: the `applied` flag, the detached group copy's data
(opaque), and the times at which the user function has been invoked. -/
structure GroupUpdaterState where
  applied : Bool
  data : Nat
  callTimes : List ℚ
deriving DecidableEq

/-- Model of `GroupUpdater.apply_for_group`: return immediately when already
applied this sample; otherwise invoke the user function `f` on the detached
copy at `global_t` and set the flag. -/
def apply_for_group (f : ℚ → Nat → Nat) (s : GroupUpdaterState) (global_t : ℚ) :
    GroupUpdaterState :=
  if s.applied then s
  else ⟨true, f global_t s.data, s.callTimes ++ [global_t]⟩

/-- Model of `_GroupUpdater.pre_apply`: reset the `applied` flag for the new
time sample and restore the detached copy from the live data. -/
def pre_apply (s : GroupUpdaterState) (live : Nat) : GroupUpdaterState :=
  ⟨false, live, s.callTimes⟩

/-- A Python value as seen by `ItemUpdater.call`: either an `Item` instance or
some non-item value. -/
inductive PyValue where
  | item (itemId : Nat)
  | other (v : Nat)
deriving DecidableEq

/-- `isinstance(ret, Item)`. -/
def PyValue.isItem : PyValue → Bool
  | .item _ => true
  | .other _ => false

/-- Rendering of the offending value in the error message (`{ret}`). -/
def showPyValue : PyValue → String
  | .item n => "Item#" ++ toString n
  | .other n => "value#" ++ toString n

/-- The `{file}:{lineno}` source location interpolated into the message. -/
def sourceLocation (file : String) (lineno : Nat) : String :=
  file ++ ":" ++ toString lineno

/-- The `UpdaterError` message built by `ItemUpdater.call`. -/
def updaterErrorMessage (v : PyValue) (file : String) (lineno : Nat) : String :=
  "The function passed to ItemUpdater must return an item, but got "
    ++ showPyValue v ++ " instead, defined in " ++ sourceLocation file lineno

/-- Model of `ItemUpdater.call`: given the value `ret` returned by the user
function (whose source location is `file:lineno`), either return it unchanged
or raise `UpdaterError` with the formatted message. -/
def ItemUpdater.call (file : String) (lineno : Nat) (ret : PyValue) :
    Except String PyValue :=
  if PyValue.isItem ret then Except.ok ret
  else Except.error (updaterErrorMessage ret file lineno)

/-- The boolean flags held by an `ItemUpdater`. -/
structure ItemUpdaterCfg where
  hide_at_begin : Bool
  show_at_end : Bool
  become_at_end : Bool
deriving DecidableEq

/-- Observable effects of `ItemUpdater._time_fixed`, in execution order. -/
inductive IUEffect where
  | addRenderCallback
  | scheduleHide (t : ℚ)
  | scheduleShow (t : ℚ)
  | become (t : ℚ)
  | detectChangeIU (itemId : Nat) (t : ℚ) (force : Bool)
deriving DecidableEq

/-- Model of `ItemUpdater._time_fixed`: register the per-frame render-calls
callback; then, only when an item was supplied, schedule hide/show and — when
`become_at_end` — replace the item with the final-frame output and force a
`detect_change` on it and each descendant at the range end. -/
def ItemUpdater.time_fixed (item : Option ItemTree) (cfg : ItemUpdaterCfg)
    (t_at t_end : ℚ) : List IUEffect :=
  IUEffect.addRenderCallback ::
    match item with
    | none => []
    | some it =>
      (if cfg.hide_at_begin then [IUEffect.scheduleHide t_at] else [])
        ++ (if cfg.show_at_end then [IUEffect.scheduleShow t_end] else [])
        ++ (if cfg.become_at_end then
              IUEffect.become t_end
                :: (ItemTree.walk it).map
                    (fun d => IUEffect.detectChangeIU (ItemTree.nodeId d) t_end true)
            else [])

/-! ## Concrete sample inputs used by counterexamples and witnesses -/

/-- A derived-class level carrying one refresh slot (func 1) and nothing else. -/
def sampleSelfDerived : SelfSlots := ⟨[], [1], []⟩

/-- A base-class level carrying one normal slot (func 2) and nothing else. -/
def sampleSelfBase : SelfSlots := ⟨[2], [], []⟩

/-- Dispatch table: derived level has a refresh slot, base level a normal slot. -/
def sampleSig1 : Signal :=
  ⟨[("", ⟨[("M.B", sampleSelfDerived), ("M.A", sampleSelfBase)], []⟩)]⟩

/-- A sender of class `M.B` (subclass of `M.A`), a Relation node. -/
def sampleSender1 : Sender := ⟨7, ["M.B", "M.A"], true, false⟩

/-- A derived-class level carrying one normal slot (func 3). -/
def sampleSelfNormal2 : SelfSlots := ⟨[3], [], []⟩

/-- A base-class level carrying one refresh-with-recurse slot (func 4). -/
def sampleSelfRecurse2 : SelfSlots := ⟨[], [], [⟨4, true, false⟩]⟩

/-- Dispatch table: derived level has a normal slot, base level a recurse slot. -/
def sampleSig2 : Signal :=
  ⟨[("", ⟨[("N.B", sampleSelfNormal2), ("N.A", sampleSelfRecurse2)], []⟩)]⟩

/-- A sender of class `N.B` that is neither a Relation nor a Component. -/
def sampleSender2 : Sender := ⟨8, ["N.B", "N.A"], false, false⟩

/-- Dispatch table with a single self-scoped normal slot (func 1) on `W.A`. -/
def sampleSig9 : Signal := ⟨[("", ⟨[("W.A", ⟨[1], [], []⟩)], []⟩)]⟩

/-- A sender of class `W.A` with identity 5. -/
def sampleSender9 : Sender := ⟨5, ["W.A"], true, false⟩

/-- A single instance-scoped registration made under key `"a"`. -/
def sampleOps4 : List RegOp := [RegOp.connect "a" 0 1]

/-- The sender (identity 0) targeted by `sampleOps4`. -/
def sampleSender4 : Sender := ⟨0, [], true, false⟩

/-! ## General list lemmas -/

/-- Membership in a `concatMap`. -/
theorem mem_concatMap {α β : Type} (f : α → List β) (l : List α) (b : β) :
    b ∈ concatMap f l ↔ ∃ a ∈ l, b ∈ f a := by
  induction l with
  | nil => simp [concatMap]
  | cons x xs ih => simp [concatMap, ih]

/-- `filter` distributes over `concatMap`. -/
theorem filter_concatMap {α β : Type} (p : β → Bool) (f : α → List β) (l : List α) :
    (concatMap f l).filter p = concatMap (fun a => (f a).filter p) l := by
  induction l with
  | nil => rfl
  | cons x xs ih => simp [concatMap, List.filter_append, ih]

/-- `filterMap` distributes over `concatMap`. -/
theorem filterMap_concatMap {α β γ : Type} (p : β → Option γ) (f : α → List β) (l : List α) :
    (concatMap f l).filterMap p = concatMap (fun a => (f a).filterMap p) l := by
  induction l with
  | nil => rfl
  | cons x xs ih => simp [concatMap, List.filterMap_append, ih]

/-- A universally-true relation is pairwise on every list. -/
theorem pairwise_of_forall {α : Type} {r : α → α → Prop} (h : ∀ a b, r a b) (l : List α) :
    l.Pairwise r := by
  induction l with
  | nil => exact List.Pairwise.nil
  | cons x xs ih => exact List.Pairwise.cons (fun b _ => h x b) ih

/-- `concatMap` over an enumeration, when the body ignores the index. -/
theorem concatMap_enumFrom {α β : Type} (h : α → List β) :
    ∀ (n : ℕ) (xs : List α),
      concatMap (fun p => h p.2) (List.enumFrom n xs) = concatMap h xs := by
  intro n xs
  induction xs generalizing n with
  | nil => rfl
  | cons x xs ih => simp [List.enumFrom, concatMap, ih]

/-! ## Signal bus: unfolding lemmas -/

/-- The MRO loop on an empty MRO does nothing. -/
theorem emitSelfLevels_nil (sender : Sender) (args : List Nat) (all : AllSlots) :
    emitSelfLevels sender args all [] = ([], false) := rfl

/-- A class without an entry in `self_slots_dict` is skipped. -/
theorem emitSelfLevels_cons_none (sender : Sender) (args : List Nat) (all : AllSlots)
    (cls : Qualname) (rest : List Qualname) (h : alookup all.self_slots_dict cls = none) :
    emitSelfLevels sender args all (cls :: rest) = emitSelfLevels sender args all rest := by
  simp only [emitSelfLevels, h]

/-- The pre-check fires: a matched level with a recurse slot on a sender that
is neither Relation nor Component raises before running any of that level's
slots. -/
theorem emitSelfLevels_cons_bad (sender : Sender) (args : List Nat) (all : AllSlots)
    (cls : Qualname) (rest : List Qualname) (s : SelfSlots)
    (h : alookup all.self_slots_dict cls = some s)
    (hb : s.self_refresh_slots_with_recurse ≠ [] ∧ sender.isRelation = false
      ∧ sender.isComponent = false) :
    emitSelfLevels sender args all (cls :: rest) = ([], true) := by
  simp only [emitSelfLevels, h]
  rw [if_pos hb]

/-- A matched level that passes the pre-check executes its slots and continues. -/
theorem emitSelfLevels_cons_ok (sender : Sender) (args : List Nat) (all : AllSlots)
    (cls : Qualname) (rest : List Qualname) (s : SelfSlots)
    (h : alookup all.self_slots_dict cls = some s)
    (hb : ¬(s.self_refresh_slots_with_recurse ≠ [] ∧ sender.isRelation = false
      ∧ sender.isComponent = false)) :
    emitSelfLevels sender args all (cls :: rest)
      = (emitLevel sender args s ++ (emitSelfLevels sender args all rest).1,
         (emitSelfLevels sender args all rest).2) := by
  simp only [emitSelfLevels, h]
  rw [if_neg hb]

/-- Emission under an unregistered key is a no-op. -/
theorem emit_unregistered (sig : Signal) (sender : Sender) (args : List Nat) (key : Key)
    (h : alookup sig.slots key = none) :
    Signal.emit sig sender args key = ([], false) := by
  simp only [Signal.emit, h]

/-- A raised pre-check error aborts the emission after the events already
performed; the instance-scoped slots never run. -/
theorem emit_registered_err (sig : Signal) (sender : Sender) (args : List Nat) (key : Key)
    (all : AllSlots) (h : alookup sig.slots key = some all)
    (he : (emitSelfLevels sender args all sender.mro).2 = true) :
    Signal.emit sig sender args key = emitSelfLevels sender args all sender.mro := by
  simp only [Signal.emit, h, he, if_true]

/-- An error-free emission with no instance-scoped entry for the sender. -/
theorem emit_registered_ok_none (sig : Signal) (sender : Sender) (args : List Nat)
    (key : Key) (all : AllSlots) (h : alookup sig.slots key = some all)
    (he : (emitSelfLevels sender args all sender.mro).2 = false)
    (hi : alookup all.slots_dict sender.id = none) :
    Signal.emit sig sender args key = emitSelfLevels sender args all sender.mro := by
  simp only [Signal.emit, h, he, hi, if_false, Bool.false_eq_true]

/-- An error-free emission followed by the sender's instance-scoped slots. -/
theorem emit_registered_ok_some (sig : Signal) (sender : Sender) (args : List Nat)
    (key : Key) (all : AllSlots) (sl : InstSlots) (h : alookup sig.slots key = some all)
    (he : (emitSelfLevels sender args all sender.mro).2 = false)
    (hi : alookup all.slots_dict sender.id = some sl) :
    Signal.emit sig sender args key
      = ((emitSelfLevels sender args all sender.mro).1 ++ emitInstance args sl, false) := by
  simp only [Signal.emit, h, he, hi, if_false, Bool.false_eq_true]

/-- First component of `emitSelfLevels_cons_ok`. -/
theorem emitSelfLevels_cons_ok_fst (sender : Sender) (args : List Nat) (all : AllSlots)
    (cls : Qualname) (rest : List Qualname) (s : SelfSlots)
    (h : alookup all.self_slots_dict cls = some s)
    (hb : ¬(s.self_refresh_slots_with_recurse ≠ [] ∧ sender.isRelation = false
      ∧ sender.isComponent = false)) :
    (emitSelfLevels sender args all (cls :: rest)).1
      = emitLevel sender args s ++ (emitSelfLevels sender args all rest).1 := by
  rw [emitSelfLevels_cons_ok sender args all cls rest s h hb]

/-- Second component of `emitSelfLevels_cons_ok`. -/
theorem emitSelfLevels_cons_ok_snd (sender : Sender) (args : List Nat) (all : AllSlots)
    (cls : Qualname) (rest : List Qualname) (s : SelfSlots)
    (h : alookup all.self_slots_dict cls = some s)
    (hb : ¬(s.self_refresh_slots_with_recurse ≠ [] ∧ sender.isRelation = false
      ∧ sender.isComponent = false)) :
    (emitSelfLevels sender args all (cls :: rest)).2
      = (emitSelfLevels sender args all rest).2 := by
  rw [emitSelfLevels_cons_ok sender args all cls rest s h hb]

/-- When no error is raised, the MRO loop's trace is exactly the concatenation,
in MRO order, of the per-level traces of the matched levels. -/
theorem emitSelfLevels_ok_trace (sender : Sender) (args : List Nat) (all : AllSlots) :
    ∀ mro : List Qualname, (emitSelfLevels sender args all mro).2 = false →
      (emitSelfLevels sender args all mro).1
        = concatMap (emitLevel sender args)
            (mro.filterMap (fun cls => alookup all.self_slots_dict cls)) := by
  intro mro
  induction mro with
  | nil => intro _; rfl
  | cons cls rest ih =>
    intro h2
    cases hc : alookup all.self_slots_dict cls with
    | none =>
      rw [emitSelfLevels_cons_none sender args all cls rest hc] at h2 ⊢
      rw [ih h2]
      simp [List.filterMap_cons, hc]
    | some s =>
      by_cases hb : (s.self_refresh_slots_with_recurse ≠ [] ∧ sender.isRelation = false
          ∧ sender.isComponent = false)
      · rw [emitSelfLevels_cons_bad sender args all cls rest s hc hb] at h2
        simp at h2
      · rw [emitSelfLevels_cons_ok_snd sender args all cls rest s hc hb] at h2
        rw [emitSelfLevels_cons_ok_fst sender args all cls rest s hc hb, ih h2]
        simp [List.filterMap_cons, hc, concatMap]

/-- Every event of a per-level trace is self-scoped (coarse phase 0). -/
theorem phaseCoarse_emitLevel (sender : Sender) (args : List Nat) (s : SelfSlots) :
    ∀ e ∈ emitLevel sender args s, phaseCoarse e = 0 := by
  intro e he
  simp only [emitLevel, List.mem_append, List.mem_map] at he
  rcases he with (⟨f, _, rfl⟩ | ⟨f, _, rfl⟩) | ⟨sl, _, rfl⟩ <;> rfl

/-- Every event produced by the MRO loop is self-scoped (coarse phase 0). -/
theorem phaseCoarse_emitSelfLevels (sender : Sender) (args : List Nat) (all : AllSlots) :
    ∀ (mro : List Qualname), ∀ e ∈ (emitSelfLevels sender args all mro).1,
      phaseCoarse e = 0 := by
  intro mro
  induction mro with
  | nil => intro e he; simp [emitSelfLevels_nil] at he
  | cons cls rest ih =>
    intro e he
    cases hc : alookup all.self_slots_dict cls with
    | none =>
      rw [emitSelfLevels_cons_none sender args all cls rest hc] at he
      exact ih e he
    | some s =>
      by_cases hb : (s.self_refresh_slots_with_recurse ≠ [] ∧ sender.isRelation = false
          ∧ sender.isComponent = false)
      · rw [emitSelfLevels_cons_bad sender args all cls rest s hc hb] at he
        simp at he
      · rw [emitSelfLevels_cons_ok_fst sender args all cls rest s hc hb,
          List.mem_append] at he
        rcases he with h | h
        · exact phaseCoarse_emitLevel sender args s e h
        · exact ih e h

/-- The instance-scoped trace is phase-ordered: callbacks before markings. -/
theorem pairwise_phaseCoarse_emitInstance (args : List Nat) (sl : InstSlots) :
    (emitInstance args sl).Pairwise (fun a b => phaseCoarse a ≤ phaseCoarse b) := by
  rw [emitInstance, List.pairwise_append]
  refine ⟨?_, ?_, ?_⟩
  · rw [List.pairwise_map]
    exact pairwise_of_forall (fun a b => le_refl _) _
  · rw [List.pairwise_map]
    exact pairwise_of_forall (fun a b => le_refl _) _
  · intro a ha b hb
    simp only [List.mem_map] at ha hb
    obtain ⟨f, _, rfl⟩ := ha
    obtain ⟨r, _, rfl⟩ := hb
    simp [phaseCoarse]

/-- A list of events that are all self-scoped is coarse-phase ordered. -/
theorem pairwise_phase_of_forall_zero :
    ∀ l : List EmitEvent, (∀ e ∈ l, phaseCoarse e = 0) →
      l.Pairwise (fun a b => phaseCoarse a ≤ phaseCoarse b) := by
  intro l
  induction l with
  | nil => intro _; exact List.Pairwise.nil
  | cons x xs ih =>
    intro h
    refine List.Pairwise.cons ?_ (ih fun e he => h e (List.mem_cons_of_mem x he))
    intro b hb
    have hx := h x (List.mem_cons_self x xs)
    have hb' := h b (List.mem_cons_of_mem x hb)
    omega

/-- Claim C1 (amended): in an error-free emission, reactions run per matched
MRO class level in order — within each level normal slots, then refresh
markings, then recursive refresh markings (`emitLevel`) — followed by all
instance-scoped normal callbacks and then all instance-scoped refresh
markings; in particular every self-scoped reaction precedes every
instance-scoped one, and instance callbacks precede instance markings. -/
theorem emit_order_per_level (sig : Signal) (sender : Sender) (args : List Nat) (key : Key)
    (hok : (Signal.emit sig sender args key).2 = false) :
    (Signal.emit sig sender args key).1
      = concatMap (emitLevel sender args) (matchedLevels sig sender key)
          ++ instanceTrace sig sender args key
    ∧ (Signal.emit sig sender args key).1.Pairwise
        (fun a b => phaseCoarse a ≤ phaseCoarse b) := by
  cases hk : alookup sig.slots key with
  | none =>
    rw [emit_unregistered sig sender args key hk]
    simp [matchedLevels, instanceTrace, hk, concatMap]
  | some all =>
    have hmatched : matchedLevels sig sender key
        = sender.mro.filterMap (fun cls => alookup all.self_slots_dict cls) := by
      simp [matchedLevels, hk]
    cases he : (emitSelfLevels sender args all sender.mro).2 with
    | true =>
      rw [emit_registered_err sig sender args key all hk he, he] at hok
      exact absurd hok (by simp)
    | false =>
      cases hi : alookup all.slots_dict sender.id with
      | none =>
        rw [emit_registered_ok_none sig sender args key all hk he hi]
        constructor
        · rw [emitSelfLevels_ok_trace sender args all sender.mro he, hmatched]
          simp [instanceTrace, hk, hi]
        · exact pairwise_phase_of_forall_zero _
            (phaseCoarse_emitSelfLevels sender args all sender.mro)
      | some sl =>
        rw [emit_registered_ok_some sig sender args key all sl hk he hi]
        constructor
        · rw [emitSelfLevels_ok_trace sender args all sender.mro he, hmatched]
          simp [instanceTrace, hk, hi]
        · rw [List.pairwise_append]
          refine ⟨pairwise_phase_of_forall_zero _
              (phaseCoarse_emitSelfLevels sender args all sender.mro),
            pairwise_phaseCoarse_emitInstance args sl, ?_⟩
          intro a ha b _
          rw [phaseCoarse_emitSelfLevels sender args all sender.mro a ha]
          exact Nat.zero_le _

/-- Counterexample to claim C1 as stated: with a refresh slot registered on a
derived class level and a normal slot on a base class level, the derived
level's refresh marking runs before the base level's normal slot, so the
emission's trace is not ordered by the four global phases. -/
theorem emit_global_phase_order_cex :
    ¬ (Signal.emit sampleSig1 sampleSender1 [] "").1.Pairwise
        (fun a b => phaseC1 a ≤ phaseC1 b) := by
  decide

/-- Witness for `emit_order_per_level` at a concrete error-free emission. -/
theorem emit_order_per_level_witness :
    (Signal.emit sampleSig1 sampleSender1 [] "").1
      = concatMap (emitLevel sampleSender1 []) (matchedLevels sampleSig1 sampleSender1 "")
          ++ instanceTrace sampleSig1 sampleSender1 [] ""
    ∧ (Signal.emit sampleSig1 sampleSender1 [] "").1.Pairwise
        (fun a b => phaseCoarse a ≤ phaseCoarse b) :=
  emit_order_per_level sampleSig1 sampleSender1 [] "" (by decide)

/-- On a sender that is neither Relation nor Component, an MRO containing a
matched level with a recurse slot makes the loop raise; the trace consists of
exactly the per-level traces of the matched levels strictly before the first
level carrying a recurse slot. -/
theorem emitSelfLevels_reject (sender : Sender) (args : List Nat) (all : AllSlots)
    (hrel : sender.isRelation = false) (hcomp : sender.isComponent = false) :
    ∀ mro : List Qualname,
      (∃ s ∈ mro.filterMap (fun cls => alookup all.self_slots_dict cls),
        s.self_refresh_slots_with_recurse ≠ []) →
      (emitSelfLevels sender args all mro).2 = true
      ∧ (emitSelfLevels sender args all mro).1
        = concatMap (emitLevel sender args)
            ((mro.filterMap (fun cls => alookup all.self_slots_dict cls)).takeWhile
               (fun s => s.self_refresh_slots_with_recurse.isEmpty)) := by
  intro mro
  induction mro with
  | nil => intro h; simp at h
  | cons cls rest ih =>
    intro h
    cases hc : alookup all.self_slots_dict cls with
    | none =>
      rw [emitSelfLevels_cons_none sender args all cls rest hc]
      simp only [List.filterMap_cons, hc] at h ⊢
      exact ih h
    | some s =>
      by_cases hs : s.self_refresh_slots_with_recurse = []
      · have hb : ¬(s.self_refresh_slots_with_recurse ≠ [] ∧ sender.isRelation = false
            ∧ sender.isComponent = false) := by
          intro hx
          exact hx.1 hs
        simp only [List.filterMap_cons, hc] at h ⊢
        have hrest : ∃ t ∈ rest.filterMap (fun cls => alookup all.self_slots_dict cls),
            t.self_refresh_slots_with_recurse ≠ [] := by
          obtain ⟨t, ht, htr⟩ := h
          rcases List.mem_cons.mp ht with rfl | htm
          · exact absurd hs htr
          · exact ⟨t, htm, htr⟩
        obtain ⟨ih2, ih1⟩ := ih hrest
        refine ⟨?_, ?_⟩
        · rw [emitSelfLevels_cons_ok_snd sender args all cls rest s hc hb]
          exact ih2
        · rw [emitSelfLevels_cons_ok_fst sender args all cls rest s hc hb, ih1]
          rw [List.takeWhile_cons]
          have : s.self_refresh_slots_with_recurse.isEmpty = true := by
            rw [hs]; rfl
          rw [this]
          simp [concatMap]
      · have hb : s.self_refresh_slots_with_recurse ≠ [] ∧ sender.isRelation = false
            ∧ sender.isComponent = false := ⟨hs, hrel, hcomp⟩
        rw [emitSelfLevels_cons_bad sender args all cls rest s hc hb]
        simp only [List.filterMap_cons, hc]
        rw [List.takeWhile_cons]
        have : s.self_refresh_slots_with_recurse.isEmpty = false := by
          cases hr : s.self_refresh_slots_with_recurse with
          | nil => exact absurd hr hs
          | cons a t => rfl
        rw [this]
        simp [concatMap]

/-- Claim C2 (amended): when the matched registrations include a
`self_refresh_with_recurse` slot and the sender is neither a `Relation` nor a
`Component`, the emission raises a `TypeError`; the rejection happens before
any reaction of the first such class level and before all instance-scoped
reactions, but the self-scoped reactions of the earlier (more derived) matched
MRO levels have already executed. -/
theorem emit_recurse_reject (sig : Signal) (sender : Sender) (args : List Nat) (key : Key)
    (hrel : sender.isRelation = false) (hcomp : sender.isComponent = false)
    (hbad : ∃ s ∈ matchedLevels sig sender key, s.self_refresh_slots_with_recurse ≠ []) :
    (Signal.emit sig sender args key).2 = true
    ∧ (Signal.emit sig sender args key).1
      = concatMap (emitLevel sender args)
          ((matchedLevels sig sender key).takeWhile
             (fun s => s.self_refresh_slots_with_recurse.isEmpty)) := by
  cases hk : alookup sig.slots key with
  | none =>
    simp [matchedLevels, hk] at hbad
  | some all =>
    have hmatched : matchedLevels sig sender key
        = sender.mro.filterMap (fun cls => alookup all.self_slots_dict cls) := by
      simp [matchedLevels, hk]
    rw [hmatched] at hbad ⊢
    obtain ⟨h2, h1⟩ := emitSelfLevels_reject sender args all hrel hcomp sender.mro hbad
    rw [emit_registered_err sig sender args key all hk h2]
    exact ⟨h2, h1⟩

/-- Counterexample to claim C2 as stated: with a normal slot on the derived
level and a recurse slot on the base level, a non-Relation non-Component
sender makes `emit` raise — but only after the derived level's normal slot has
already been invoked, so the rejection does not precede all state changes. -/
theorem emit_recurse_reject_cex :
    (Signal.emit sampleSig2 sampleSender2 [] "").2 = true
    ∧ EmitEvent.selfSlotCall 3 8 [] ∈ (Signal.emit sampleSig2 sampleSender2 [] "").1 := by
  decide

/-- Witness for `emit_recurse_reject` at a concrete rejected emission. -/
theorem emit_recurse_reject_witness :
    (Signal.emit sampleSig2 sampleSender2 [] "").2 = true
    ∧ (Signal.emit sampleSig2 sampleSender2 [] "").1
      = concatMap (emitLevel sampleSender2 [])
          ((matchedLevels sampleSig2 sampleSender2 "").takeWhile
             (fun s => s.self_refresh_slots_with_recurse.isEmpty)) :=
  emit_recurse_reject sampleSig2 sampleSender2 [] "" rfl rfl (by decide)

/-- Updating one key of an association list leaves lookups of other keys alone. -/
theorem alookup_updD_ne {α β : Type} [DecidableEq α] (l : List (α × β)) (k k' : α) (d : β)
    (f : β → β) (h : k' ≠ k) : alookup (updD l k' d f) k = alookup l k := by
  induction l with
  | nil => simp [updD, alookup, h]
  | cons p rest ih =>
    obtain ⟨a, b⟩ := p
    by_cases ha : a = k'
    · subst ha
      simp [updD, alookup, h]
    · simp [updD, alookup, ha, ih]

/-- A registration under a different key does not change what an emission
under key `k` can see. -/
theorem applyReg_preserves (sig : Signal) (op : RegOp) (k : Key)
    (h : RegOp.regKey op ≠ k) :
    alookup (applyReg sig op).slots k = alookup sig.slots k := by
  cases op <;> simp only [applyReg, updAll, RegOp.regKey] at h ⊢ <;>
    exact alookup_updD_ne _ _ _ _ _ h

/-- Registrations all made under keys other than `k` leave `k`'s entry alone. -/
theorem foldl_applyReg_preserves (k : Key) :
    ∀ (ops : List RegOp) (sig : Signal), (∀ op ∈ ops, RegOp.regKey op ≠ k) →
      alookup (List.foldl applyReg sig ops).slots k = alookup sig.slots k := by
  intro ops
  induction ops with
  | nil => intro sig _; rfl
  | cons op rest ih =>
    intro sig h
    rw [List.foldl_cons, ih (applyReg sig op) (fun o ho => h o (List.mem_cons_of_mem op ho))]
    exact applyReg_preserves sig op k (h op (List.mem_cons_self op rest))

/-- `emit` inspects the dispatch table only through the entry of the emission's
key: two tables agreeing on that entry emit identically. -/
theorem emit_depends_only_on_key (sig sig' : Signal) (sender : Sender) (args : List Nat)
    (k : Key) (h : alookup sig.slots k = alookup sig'.slots k) :
    Signal.emit sig sender args k = Signal.emit sig' sender args k := by
  simp only [Signal.emit, h]

/-- Claim C4: emitting with key `k` triggers only registrations made under
exactly `k` — registrations under other keys are invisible to the emission —
and if no registration was ever made under `k`, `emit` returns without
performing any work (empty trace, no error), the emptiness being the guard
checked first. -/
theorem emit_key_isolation (ops : List RegOp) (op : RegOp) (sender : Sender)
    (args : List Nat) (k : Key) :
    ((∀ o ∈ ops, RegOp.regKey o ≠ k) →
        Signal.emit (mkSignal ops) sender args k = ([], false))
    ∧ (RegOp.regKey op ≠ k →
        Signal.emit (applyReg (mkSignal ops) op) sender args k
          = Signal.emit (mkSignal ops) sender args k) := by
  constructor
  · intro h
    refine emit_unregistered _ sender args k ?_
    rw [mkSignal]
    exact (foldl_applyReg_preserves k ops emptySignal h).trans rfl
  · intro h
    exact emit_depends_only_on_key _ _ sender args k (applyReg_preserves (mkSignal ops) op k h)

/-- Witness for `emit_key_isolation`: a table with one registration under key
`"a"` emits nothing under key `""`, and a self-slot registration under `"b"`
does not change the emission under `""`. -/
theorem emit_key_isolation_witness :
    Signal.emit (mkSignal sampleOps4) sampleSender4 [] "" = ([], false)
    ∧ Signal.emit (applyReg (mkSignal sampleOps4) (RegOp.self_slot "b" "C" 2))
        sampleSender4 [] "" = Signal.emit (mkSignal sampleOps4) sampleSender4 [] "" :=
  ⟨(emit_key_isolation sampleOps4 (RegOp.self_slot "b" "C" 2) sampleSender4 [] "").1
      (by decide),
   (emit_key_isolation sampleOps4 (RegOp.self_slot "b" "C" 2) sampleSender4 [] "").2
      (by decide)⟩

/-- First component of `emit_registered_ok_some`. -/
theorem emit_registered_ok_some_fst (sig : Signal) (sender : Sender) (args : List Nat)
    (key : Key) (all : AllSlots) (sl : InstSlots) (h : alookup sig.slots key = some all)
    (he : (emitSelfLevels sender args all sender.mro).2 = false)
    (hi : alookup all.slots_dict sender.id = some sl) :
    (Signal.emit sig sender args key).1
      = (emitSelfLevels sender args all sender.mro).1 ++ emitInstance args sl := by
  rw [emit_registered_ok_some sig sender args key all sl h he hi]

/-- Every event of a per-level trace respects the argument convention. -/
theorem emitLevel_argsOk (sender : Sender) (args : List Nat) (s : SelfSlots) :
    ∀ e ∈ emitLevel sender args s, EventArgsOk sender args e := by
  intro e he
  simp only [emitLevel, List.mem_append, List.mem_map] at he
  rcases he with (⟨f, _, rfl⟩ | ⟨f, _, rfl⟩) | ⟨sl, _, rfl⟩
  · exact ⟨fun f' sa xs heq => by
        injection heq with h1 h2 h3
        exact ⟨h2.symm, h3.symm⟩,
      fun f' xs heq => EmitEvent.noConfusion heq⟩
  · exact ⟨fun f' sa xs heq => EmitEvent.noConfusion heq,
      fun f' xs heq => EmitEvent.noConfusion heq⟩
  · exact ⟨fun f' sa xs heq => EmitEvent.noConfusion heq,
      fun f' xs heq => EmitEvent.noConfusion heq⟩

/-- Every event of the MRO loop respects the argument convention. -/
theorem emitSelfLevels_argsOk (sender : Sender) (args : List Nat) (all : AllSlots) :
    ∀ (mro : List Qualname), ∀ e ∈ (emitSelfLevels sender args all mro).1,
      EventArgsOk sender args e := by
  intro mro
  induction mro with
  | nil => intro e he; simp [emitSelfLevels_nil] at he
  | cons cls rest ih =>
    intro e he
    cases hc : alookup all.self_slots_dict cls with
    | none =>
      rw [emitSelfLevels_cons_none sender args all cls rest hc] at he
      exact ih e he
    | some s =>
      by_cases hb : (s.self_refresh_slots_with_recurse ≠ [] ∧ sender.isRelation = false
          ∧ sender.isComponent = false)
      · rw [emitSelfLevels_cons_bad sender args all cls rest s hc hb] at he
        simp at he
      · rw [emitSelfLevels_cons_ok_fst sender args all cls rest s hc hb,
          List.mem_append] at he
        rcases he with h | h
        · exact emitLevel_argsOk sender args s e h
        · exact ih e h

/-- Every event of the instance-scoped trace respects the argument convention. -/
theorem emitInstance_argsOk (sender : Sender) (args : List Nat) (sl : InstSlots) :
    ∀ e ∈ emitInstance args sl, EventArgsOk sender args e := by
  intro e he
  simp only [emitInstance, List.mem_append, List.mem_map] at he
  rcases he with ⟨f, _, rfl⟩ | ⟨r, _, rfl⟩
  · exact ⟨fun f' sa xs heq => EmitEvent.noConfusion heq,
      fun f' xs heq => by
        injection heq with h1 h2
        exact h2.symm⟩
  · exact ⟨fun f' sa xs heq => EmitEvent.noConfusion heq,
      fun f' xs heq => EmitEvent.noConfusion heq⟩

/-- Claim C9: in every emission, self-scoped normal slots are invoked with the
sender prepended to the extra arguments (`func(sender, *args)`), while
instance-scoped callbacks registered via `connect` are invoked with exactly
the extra arguments and never receive the sender. -/
theorem emit_argument_convention (sig : Signal) (sender : Sender) (args : List Nat)
    (k : Key) : ∀ e ∈ (Signal.emit sig sender args k).1, EventArgsOk sender args e := by
  intro e he
  cases hk : alookup sig.slots k with
  | none =>
    rw [emit_unregistered sig sender args k hk] at he
    simp at he
  | some all =>
    cases he2 : (emitSelfLevels sender args all sender.mro).2 with
    | true =>
      rw [emit_registered_err sig sender args k all hk he2] at he
      exact emitSelfLevels_argsOk sender args all sender.mro e he
    | false =>
      cases hi : alookup all.slots_dict sender.id with
      | none =>
        rw [emit_registered_ok_none sig sender args k all hk he2 hi] at he
        exact emitSelfLevels_argsOk sender args all sender.mro e he
      | some sl =>
        rw [emit_registered_ok_some_fst sig sender args k all sl hk he2 hi,
          List.mem_append] at he
        rcases he with h | h
        · exact emitSelfLevels_argsOk sender args all sender.mro e h
        · exact emitInstance_argsOk sender args sl e h

/-- Witness for `emit_argument_convention`: the event fired by a concrete
emission carries the sender's identity followed by the extra argument list. -/
theorem emit_argument_convention_witness :
    EventArgsOk sampleSender9 [9] (EmitEvent.selfSlotCall 1 5 [9]) :=
  emit_argument_convention sampleSig9 sampleSender9 [9] ""
    (EmitEvent.selfSlotCall 1 5 [9]) (by decide)

/-! ## Updater theorems -/

/-- Claim C3: `get_sub_alpha(alpha)` equals
`clip(alpha*((count-1)*r + 1) - i*r, 0, 1)`, and for `lag_ratio = 0` every
index yields exactly the global alpha, for all alpha in [0,1]. -/
theorem get_sub_alpha_spec ( lag_ratio : ℚ) (index count : ℕ) (alpha : ℚ) :
    get_sub_alpha lag_ratio index count alpha
      = clip (alpha * (((count : ℚ) - 1) * lag_ratio + 1) - (index : ℚ) * lag_ratio) 0 1
    ∧ ( lag_ratio = 0 → 0 ≤ alpha → alpha ≤ 1 →
        get_sub_alpha lag_ratio index count alpha = alpha) := by
  constructor
  · rfl
  · intro h0 ha hb
    subst h0
    have h1 : get_sub_alpha 0 index count alpha = clip alpha 0 1 := by
      simp [get_sub_alpha]
    rw [h1]
    show min (max alpha 0) 1 = alpha
    rw [max_eq_left ha, min_eq_left hb]

/-- Witness for `get_sub_alpha_spec` with 5 items, index 2, ratio 0, alpha 1/2. -/
theorem get_sub_alpha_spec_witness :
    get_sub_alpha 0 2 5 (1 / 2)
      = clip ((1 / 2) * ((((5 : ℕ) : ℚ) - 1) * 0 + 1) - ((2 : ℕ) : ℚ) * 0) 0 1
    ∧ get_sub_alpha 0 2 5 (1 / 2) = 1 / 2 :=
  ⟨(get_sub_alpha_spec 0 2 5 (1 / 2)).1,
   (get_sub_alpha_spec 0 2 5 (1 / 2)).2 rfl (by norm_num) (by norm_num)⟩

/-- Claim C5: `ItemUpdater.call` raises an updater-return-type error exactly
when the returned value is not an Item; the error message contains the user
function's source file and line number; an Item is returned unchanged. -/
theorem itemUpdater_call_spec (file : String) (lineno : Nat) (ret : PyValue) :
    ((∃ msg, ItemUpdater.call file lineno ret = Except.error msg)
        ↔ PyValue.isItem ret = false)
    ∧ (∀ msg, ItemUpdater.call file lineno ret = Except.error msg →
        ∃ pre, msg = pre ++ (file ++ ":" ++ toString lineno))
    ∧ (PyValue.isItem ret = true → ItemUpdater.call file lineno ret = Except.ok ret) := by
  cases h : PyValue.isItem ret with
  | true =>
    refine ⟨⟨?_, ?_⟩, ?_, ?_⟩
    · rintro ⟨msg, hmsg⟩
      simp only [ItemUpdater.call, h, if_true] at hmsg
      exact Except.noConfusion hmsg
    · intro hf
      exact absurd hf (by simp)
    · intro msg hmsg
      simp only [ItemUpdater.call, h, if_true] at hmsg
      exact Except.noConfusion hmsg
    · intro _
      simp only [ItemUpdater.call, h, if_true]
  | false =>
    refine ⟨⟨?_, ?_⟩, ?_, ?_⟩
    · intro _
      rfl
    · intro _
      refine ⟨updaterErrorMessage ret file lineno, ?_⟩
      simp only [ItemUpdater.call, h, Bool.false_eq_true, if_false]
    · intro msg hmsg
      simp only [ItemUpdater.call, h, Bool.false_eq_true, if_false] at hmsg
      refine ⟨"The function passed to ItemUpdater must return an item, but got "
          ++ showPyValue ret ++ " instead, defined in ", ?_⟩
      injection hmsg with hm
      rw [← hm]
      rfl
    · intro ht
      exact absurd ht (by simp)

/-- Witness for `itemUpdater_call_spec`: an Item value is passed through, and
the message for a non-item value embeds the source location `scene.py:42`. -/
theorem itemUpdater_call_spec_witness :
    ItemUpdater.call "scene.py" 42 (PyValue.item 3) = Except.ok (PyValue.item 3)
    ∧ ∃ pre, updaterErrorMessage (PyValue.other 0) "scene.py" 42
        = pre ++ ("scene.py" ++ ":" ++ toString 42) :=
  ⟨(itemUpdater_call_spec "scene.py" 42 (PyValue.item 3)).2.2 rfl,
   (itemUpdater_call_spec "scene.py" 42 (PyValue.other 0)).2.1
      (updaterErrorMessage (PyValue.other 0) "scene.py" 42) rfl⟩

/-- A `GroupUpdater` whose `applied` flag is set ignores `apply_for_group`. -/
theorem apply_for_group_applied (f : ℚ → Nat → Nat) (s : GroupUpdaterState) (t : ℚ)
    (h : s.applied = true) : apply_for_group f s t = s := by
  simp [apply_for_group, h]

/-- Claim C6: after `pre_apply` resets the flag for a time sample, the first
`apply_for_group` invokes the user function exactly once on the freshly
restored group copy (one new call time, data transformed once, flag set), and
every further `apply_for_group` before the next `pre_apply` returns
immediately leaving the whole state unchanged. -/
theorem apply_for_group_once_per_sample (f : ℚ → Nat → Nat) (s : GroupUpdaterState)
    (live : Nat) (t : ℚ) (ts : List ℚ) :
    (apply_for_group f (pre_apply s live) t).callTimes = s.callTimes ++ [t]
    ∧ (apply_for_group f (pre_apply s live) t).data = f t live
    ∧ (apply_for_group f (pre_apply s live) t).applied = true
    ∧ List.foldl (apply_for_group f) (apply_for_group f (pre_apply s live) t) ts
        = apply_for_group f (pre_apply s live) t := by
  have h1 : apply_for_group f (pre_apply s live) t
      = ⟨true, f t live, s.callTimes ++ [t]⟩ := by
    simp [apply_for_group, pre_apply]
  refine ⟨by rw [h1], by rw [h1], by rw [h1], ?_⟩
  rw [h1]
  induction ts with
  | nil => rfl
  | cons t' ts ih =>
    rw [List.foldl_cons, apply_for_group_applied f _ t' rfl]
    exact ih

/-- The `concatMap` of a function that always yields the empty list. -/
theorem concatMap_eq_nil_of_forall {α β : Type} (f : α → List β) (l : List α)
    (h : ∀ a, f a = []) : concatMap f l = [] := by
  induction l with
  | nil => rfl
  | cons x xs ih => simp [concatMap, h, ih]

/-- `concatMap` over `List.enum`, when the body ignores the index. -/
theorem concatMap_enum {α β : Type} (h : α → List β) (xs : List α) :
    concatMap (fun p => h p.2) xs.enum = concatMap h xs :=
  concatMap_enumFrom h 0 xs

/-- Extracting the spawn data out of the per-item effect blocks: each block
starts with a spawn and continues with spawn-free effects. -/
theorem filterMap_spawnData_gen (count : ℕ) (r : ℚ) (sb he : Bool)
    (tail : ℕ × ItemTree → List DUEffect)
    (htail : ∀ p, (tail p).filterMap spawnData = []) :
    ∀ xs : List (ℕ × ItemTree),
      (concatMap (fun p => DUEffect.spawn (ItemTree.nodeId p.2) p.1 count r sb he
          :: tail p) xs).filterMap spawnData
        = xs.map (fun p => (ItemTree.nodeId p.2, p.1, count)) := by
  intro xs
  induction xs with
  | nil => rfl
  | cons x xs ih =>
    simp [concatMap, List.filterMap_append, List.filterMap_cons, spawnData, htail x, ih]

/-- Dropping the spawn at the head of each per-item effect block: each block's
tail is untouched by the non-spawn filter. -/
theorem filter_nonspawn_gen (count : ℕ) (r : ℚ) (sb he : Bool)
    (tail : ℕ × ItemTree → List DUEffect)
    (htail : ∀ p, (tail p).filter (fun e => !DUEffect.isSpawn e) = tail p) :
    ∀ xs : List (ℕ × ItemTree),
      (concatMap (fun p => DUEffect.spawn (ItemTree.nodeId p.2) p.1 count r sb he
          :: tail p) xs).filter (fun e => !DUEffect.isSpawn e)
        = concatMap tail xs := by
  intro xs
  induction xs with
  | nil => rfl
  | cons x xs ih =>
    show (List.filter (fun e => !DUEffect.isSpawn e)
        ((DUEffect.spawn (ItemTree.nodeId x.2) x.1 count r sb he :: tail x)
          ++ concatMap (fun p => DUEffect.spawn (ItemTree.nodeId p.2) p.1 count r sb he
              :: tail p) xs))
      = tail x ++ concatMap tail xs
    rw [List.filter_append, List.filter_cons]
    have hsp : (!DUEffect.isSpawn (DUEffect.spawn (ItemTree.nodeId x.2) x.1 count r sb he))
        = false := rfl
    rw [hsp]
    simp only [Bool.false_eq_true, if_false]
    rw [htail x, ih]

/-- Claim C8: `DataUpdater._time_fixed` spawns exactly one `_DataUpdater` per
qualifying item — the target item plus, when `root_only` is false, its
descendants, minus null items when `skip_null_items` — each carrying the
item's position index and the total count of qualifying items. -/
theorem dataUpdater_spawn_per_item (root : ItemTree) ( lag_ratio : ℚ)
    (cfg : DataUpdaterCfg) (t_end : ℚ) :
    (DataUpdater.time_fixed root lag_ratio cfg t_end).filterMap spawnData
      = (qualifyingItems root cfg.skip_null_items cfg.root_only).enum.map
          (fun p => (ItemTree.nodeId p.2, p.1,
            (qualifyingItems root cfg.skip_null_items cfg.root_only).length))
    ∧ qualifyingItems root cfg.skip_null_items cfg.root_only
        = (if cfg.root_only then [root] else ItemTree.walk root).filter
            (fun it => !cfg.skip_null_items || !ItemTree.isNull it) := by
  constructor
  · rw [DataUpdater.time_fixed]
    exact filterMap_spawnData_gen _ lag_ratio _ _ _
      (fun p => by cases cfg.become_at_end <;> rfl) _
  · rfl

/-- Claim C7: in `DataUpdater._time_fixed`, exactly when `become_at_end` is
true, each qualifying item is restored to the stack state computed at the
range end with `for_rendering=True` and `get_at_left=True` and then
`detect_change` is forced at that instant; when `become_at_end` is false no
restore and no `detect_change` happens at all. -/
theorem dataUpdater_become_at_end_iff (root : ItemTree) ( lag_ratio : ℚ)
    (cfg : DataUpdaterCfg) (t_end : ℚ) :
    (DataUpdater.time_fixed root lag_ratio cfg t_end).filter
        (fun e => !DUEffect.isSpawn e)
      = if cfg.become_at_end then
          concatMap (fun it =>
            [DUEffect.restoreFromStack (ItemTree.nodeId it) t_end true true,
             DUEffect.detectChange (ItemTree.nodeId it) t_end true])
            (qualifyingItems root cfg.skip_null_items cfg.root_only)
        else [] := by
  rw [DataUpdater.time_fixed]
  refine (filter_nonspawn_gen _ lag_ratio _ _ _
      (fun p => by cases cfg.become_at_end <;> rfl) _).trans ?_
  cases hbe : cfg.become_at_end with
  | false =>
    simp only [hbe, Bool.false_eq_true, if_false]
    exact concatMap_eq_nil_of_forall _ _ (fun a => rfl)
  | true =>
    simp only [hbe, if_true]
    exact concatMap_enum
      (fun it => [DUEffect.restoreFromStack (ItemTree.nodeId it) t_end true true,
        DUEffect.detectChange (ItemTree.nodeId it) t_end true])
      (qualifyingItems root cfg.skip_null_items cfg.root_only)

/-- Claim C10: an `ItemUpdater` constructed with `item=None` only registers
the per-frame render callback in `_time_fixed`; no hide/show scheduling and no
end-of-range replacement happens, whatever the three flags are. -/
theorem itemUpdater_none_only_render_callback (cfg : ItemUpdaterCfg) (t_at t_end : ℚ) :
    ItemUpdater.time_fixed none cfg t_at t_end = [IUEffect.addRenderCallback] := rfl
